import Mathlib

/-!
Verification development for `update_leaderboard_data.py`
(SmallAi-API/LLM-Ranking).

The Python source is shallowly embedded over `List Char`.  The regex
scans of the source are translated into deterministic character-list
scanners that reproduce the matching semantics of the concrete patterns
used by the source (leftmost, non-overlapping `findall`; greedy /
non-greedy behaviour as it plays out for these particular patterns).
Python floats are modelled as exact rationals (all numeric literals the
pipeline produces are decimal and the verified properties are order /
equality facts that hold for the exact values); the byte-level network
and `time.sleep` side effects are modelled by an oracle `net : ℕ →
UrlopenResult` consumed one entry per `urlopen` call and by an explicit
list of slept durations.
-/

set_option maxRecDepth 8000

/-- ASCII lower-casing of one character, modelling `str.lower()` /
`re.I` on the ASCII inputs the scraper handles. -/
def lowerC (c : Char) : Char := c.toLower

/-- Python word character (`\w`) over ASCII: letters, digits, underscore. -/
def isWordChar (c : Char) : Bool := c.isAlphanum || c = '_'

/-- Python whitespace (`\s` / `str.strip()`) over ASCII:
space, tab, newline, carriage return, vertical tab, form feed. -/
def isSpaceA (c : Char) : Bool :=
  c.toNat = 32 || c.toNat = 9 || c.toNat = 10 || c.toNat = 13 || c.toNat = 11 || c.toNat = 12

/-- Case-insensitive prefix test; the pattern is given in lower case. -/
def isPrefixCI : List Char → List Char → Bool
  | [], _ => true
  | _ :: _, [] => false
  | p :: ps, c :: cs => (lowerC c = p) && isPrefixCI ps cs

/-- Split a character list at the first occurrence of the character `q`:
returns the part strictly before `q` and the part strictly after it. -/
def splitAtChar (q : Char) : List Char → Option (List Char × List Char)
  | [] => none
  | c :: r =>
    if c = q then some ([], r)
    else
      match splitAtChar q r with
      | some (a, b) => some (c :: a, b)
      | none => none

/-- Split a character list right after the earliest case-insensitive
occurrence of `pat` (given lower-case): returns the consumed part
(everything up to and including the occurrence) and the remainder. -/
def splitAfter (pat : List Char) : List Char → Option (List Char × List Char)
  | [] => none
  | c :: r =>
    if isPrefixCI pat (c :: r) then some ((c :: r).take pat.length, (c :: r).drop pat.length)
    else
      match splitAfter pat r with
      | some (a, b) => some (c :: a, b)
      | none => none

/-- Word-boundary check for the position right after `<tr` / `<td` in the
patterns `<tr\b[^>]*>` and `<td\b[^>]*>`: the next character, when there
is one, must not be a word character. -/
def boundaryOk : List Char → Bool
  | [] => true
  | c :: _ => !(isWordChar c)

/-- One attempted match of `<NAME\b[^>]*>.*?</NAME>` (flags `re.S | re.I`)
at the head of `s`.  `name` is the lower-case tag name, `close` the
lower-case closing tag.  `[^>]*>` forces the first `>` after the tag
name; the non-greedy `.*?` then runs to the earliest closing tag.
Returns the full match and the remaining input. -/
def matchElemAt (name close : List Char) (s : List Char) : Option (List Char × List Char) :=
  match s with
  | [] => none
  | c :: r =>
    if c = '<' && isPrefixCI name r then
      let rest0 := r.drop name.length
      if boundaryOk rest0 then
        match splitAfter ['>'] rest0 with
        | none => none
        | some (a1, b1) =>
          match splitAfter close b1 with
          | none => none
          | some (a2, b2) => some (c :: (r.take name.length ++ a1 ++ a2), b2)
      else none
    else none

/-- `re.findall` for the element pattern: scan left to right, emit each
match and resume right after it, advance one character on failure.
`fuel` bounds the recursion; every step consumes at least one character,
so `fuel = s.length` (as used by `findElems`) never runs out. -/
def findElemsGo (name close : List Char) : ℕ → List Char → List (List Char)
  | 0, _ => []
  | fuel + 1, s =>
    match s with
    | [] => []
    | c :: r =>
      match matchElemAt name close (c :: r) with
      | some (m, rest) => m :: findElemsGo name close fuel rest
      | none => findElemsGo name close fuel r

def findElems (name close s : List Char) : List (List Char) :=
  findElemsGo name close s.length s

/-- `re.findall(r"<tr\b[^>]*>.*?</tr>", html, flags=re.S | re.I)`. -/
def findRows (html : List Char) : List (List Char) :=
  findElems "tr".data "</tr>".data html

/-- `re.findall(r"<td\b[^>]*>.*?</td>", row, flags=re.S | re.I)`. -/
def findCells (row : List Char) : List (List Char) :=
  findElems "td".data "</td>".data row

/-- Scanner for `\btitle=(['\"])(.*?)\1` inside the `[^>]*` run that
follows `<a`.  The run is bounded by the first `>`; the greedy `[^>]*`
followed by backtracking makes Python pick the rightmost candidate whose
opening quote is closed somewhere later, so the scan keeps the last
valid candidate.  `prev` is the character before the current position
(for the `\b` check), `best` the best candidate so far. -/
def titleScan (prev : Char) (s : List Char) (best : Option (List Char)) : Option (List Char) :=
  match s with
  | [] => best
  | c :: r =>
    if c = '>' then best
    else
      let best2 :=
        if !(isWordChar prev) && isPrefixCI "title=".data (c :: r) then
          match (c :: r).drop 6 with
          | q :: r2 =>
            if q = '\'' || q = '"' then
              match splitAtChar q r2 with
              | some (content, _) => some content
              | none => best
            else best
          | [] => best
        else best
      titleScan c r best2

/-- `re.search(r"<a\b[^>]*\btitle=(['\"])(.*?)\1", row, flags=re.S | re.I)`,
returning group 2 (the raw title text) of the first match.  Leftmost
`<a` with a word boundary wins; when its tag has no usable `title=`
candidate the search continues at the next position. -/
def findModelTitle : List Char → Option (List Char)
  | [] => none
  | c :: r =>
    if c = '<' then
      match r with
      | [] => none
      | a :: r2 =>
        if lowerC a = 'a' && boundaryOk r2 then
          match titleScan a r2 none with
          | some t => some t
          | none => findModelTitle r
        else findModelTitle r
    else findModelTitle r

/-- One pass of `re.sub(r"<[^>]+>", " ", text, flags=re.S)`: each
leftmost occurrence of `<`, one or more non-`>` characters, `>` is
replaced by a single space; `<>` is not a match and is kept. -/
def stripTagsGo : ℕ → List Char → List Char
  | 0, s => s
  | _fuel + 1, [] => []
  | fuel + 1, c :: r =>
    if c = '<' then
      match splitAtChar '>' r with
      | some (inner, rest) =>
        if inner = [] then c :: stripTagsGo fuel r else ' ' :: stripTagsGo fuel rest
      | none => c :: stripTagsGo fuel r
    else c :: stripTagsGo fuel r

def stripTagsSub (s : List Char) : List Char := stripTagsGo s.length s

/-- Named character references handled by the `html.unescape` model. -/
def entityTable : List (List Char × Char) :=
  [("amp;".data, '&'), ("lt;".data, '<'), ("gt;".data, '>'),
   ("quot;".data, '"'), ("apos;".data, '\''),
   ("nbsp;".data, Char.ofNat 160), ("plusmn;".data, Char.ofNat 177)]

def matchNamedEntity : List (List Char × Char) → List Char → Option (Char × List Char)
  | [], _ => none
  | (pat, ch) :: rest, s =>
    if pat.isPrefixOf s then some (ch, s.drop pat.length) else matchNamedEntity rest s

/-- Digit-string to natural number, as Python `int` on a digit run. -/
def natOfDigits (l : List Char) : ℕ :=
  l.foldl (fun a c => 10 * a + (c.toNat - 48)) 0

/-- Decimal numeric character reference `#NNN;`. -/
def matchNumericEntity (s : List Char) : Option (Char × List Char) :=
  match s with
  | '#' :: r =>
    let ds := r.takeWhile Char.isDigit
    match ds, r.dropWhile Char.isDigit with
    | [], _ => none
    | _ :: _, ';' :: r2 =>
      let n := natOfDigits ds
      if n.isValidChar then some (Char.ofNat n, r2) else none
    | _ :: _, _ => none
  | _ => none

/-- Model of `html.unescape` restricted to semicolon-terminated named
references from `entityTable` and decimal numeric references with a
valid code point; other text is passed through unchanged.  The verified
claims do not depend on the uncovered references.  `fuel = s.length`
suffices: every step consumes at least one character. -/
def unescapeGo : ℕ → List Char → List Char
  | 0, s => s
  | _fuel + 1, [] => []
  | fuel + 1, c :: r =>
    if c = '&' then
      match matchNamedEntity entityTable r with
      | some (ch, rest) => ch :: unescapeGo fuel rest
      | none =>
        match matchNumericEntity r with
        | some (ch, rest) => ch :: unescapeGo fuel rest
        | none => c :: unescapeGo fuel r
    else c :: unescapeGo fuel r

def unescapeChars (s : List Char) : List Char := unescapeGo s.length s

/-- `re.sub(r"\s+", " ", s)`: collapse every whitespace run to one space. -/
def collapseWsGo (prevSpace : Bool) : List Char → List Char
  | [] => []
  | c :: r =>
    if isSpaceA c then
      if prevSpace then collapseWsGo true r else ' ' :: collapseWsGo true r
    else c :: collapseWsGo false r

def collapseWs (s : List Char) : List Char := collapseWsGo false s

/-- Python `str.strip()` over ASCII whitespace. -/
def pyStrip (s : List Char) : List Char :=
  ((s.dropWhile isSpaceA).reverse.dropWhile isSpaceA).reverse

/-- `strip_tags`: drop markup, decode entities, collapse whitespace, strip. -/
def strip_tags (text : List Char) : List Char :=
  pyStrip (collapseWs (unescapeChars (stripTagsSub text)))

/-- Maximal comma groups of `(?:,\d{3})*`: each iteration consumes a
comma followed by exactly three ASCII digits. -/
def commaGroups : List Char → List Char × List Char
  | ',' :: a :: b :: c :: r =>
    if a.isDigit && b.isDigit && c.isDigit then
      let (g, r2) := commaGroups r
      (',' :: a :: b :: c :: g, r2)
    else ([], ',' :: a :: b :: c :: r)
  | s => ([], s)

/-- Optional fraction `(?:\.\d+)?`: a dot followed by at least one digit. -/
def fracPart : List Char → List Char × List Char
  | '.' :: r =>
    let ds := r.takeWhile Char.isDigit
    if ds = [] then ([], '.' :: r) else ('.' :: ds, r.dropWhile Char.isDigit)
  | s => ([], s)

/-- `re.findall(r"\d+(?:,\d{3})*(?:\.\d+)?", cell_text)`.  The pattern
has nothing mandatory after `\d+`, so greedy scanning without
backtracking is exact.  Every match starts with a digit, so each step
consumes at least one character and `fuel = s.length` suffices. -/
def findNumbersGo : ℕ → List Char → List (List Char)
  | 0, _ => []
  | fuel + 1, s =>
    match s with
    | [] => []
    | c :: r =>
      if c.isDigit then
        let ds := (c :: r).takeWhile Char.isDigit
        let (gs, r2) := commaGroups ((c :: r).dropWhile Char.isDigit)
        let (fr, r3) := fracPart r2
        (ds ++ gs ++ fr) :: findNumbersGo fuel r3
      else findNumbersGo fuel r

def findNumbers (s : List Char) : List (List Char) := findNumbersGo s.length s

/-- Python `float` on a matched numeric token with commas removed (a
digit run with optional `.` fraction), as an exact rational. -/
def pyFloatOfToken (s : List Char) : ℚ :=
  match splitAtChar '.' s with
  | none => (natOfDigits s : ℚ)
  | some (ip, fp) => (natOfDigits ip : ℚ) + (natOfDigits fp : ℚ) / (10 : ℚ) ^ fp.length

/-- Model of Python `repr` for the strings at hand (quote with `'`);
only the shape of the error message depends on it, no verified claim
does. -/
def pyRepr (s : List Char) : List Char := '\'' :: (s ++ ['\''])

/-- The per-model record built by `parse_leaderboard_table`:
`{"rating": r, "rating_q975": r + u, "rating_q025": r - u}`.
Python floats are modelled as exact rationals. -/
structure ScoreRecord where
  rating : ℚ
  rating_q975 : ℚ
  rating_q025 : ℚ
deriving DecidableEq, Repr

/-- Insertion-ordered string-keyed mapping, modelling a Python `dict`. -/
abbrev Dict (α : Type) := List (List Char × α)

/-- `d[key] = v` on a Python dict: update in place if present, else append. -/
def dictInsert {α : Type} : Dict α → List Char → α → Dict α
  | [], key, v => [(key, v)]
  | (k0, v0) :: rest, key, v =>
    if k0 = key then (k0, v) :: rest else (k0, v0) :: dictInsert rest key v

/-- `d.get(key)` on a Python dict. -/
def dictGet {α : Type} : Dict α → List Char → Option α
  | [], _ => none
  | (k0, v0) :: rest, key => if k0 = key then some v0 else dictGet rest key

/-- `parse_rating_cell`: scan the stripped cell text for numeric tokens;
zero tokens raise `ValueError`, the first token (commas removed) is the
rating and the second, when present, the uncertainty (else `0.0`). -/
def parse_rating_cell (cell_text : List Char) : Except (List Char) (ℚ × ℚ) :=
  match findNumbers cell_text with
  | [] => Except.error ("No rating number parsed from: ".data ++ pyRepr cell_text)
  | n0 :: rest =>
    let rating := pyFloatOfToken (n0.filter (fun c => !(c = ',')))
    let uncertainty :=
      match rest with
      | n1 :: _ => pyFloatOfToken (n1.filter (fun c => !(c = ',')))
      | [] => (0 : ℚ)
    Except.ok (rating, uncertainty)

/-- The row loop of `parse_leaderboard_table`: rows with fewer than four
cells, without an anchor title, or with an empty decoded name are
skipped; a row whose rating cell parses is written into the mapping
(later rows overwrite earlier ones for the same name); a `ValueError`
from `parse_rating_cell` propagates and aborts the whole parse. -/
def parseRows : List (List Char) → Dict ScoreRecord → Except (List Char) (Dict ScoreRecord)
  | [], parsed => Except.ok parsed
  | row :: rest, parsed =>
    let cells := findCells row
    if cells.length < 4 then parseRows rest parsed
    else
      match findModelTitle row with
      | none => parseRows rest parsed
      | some raw =>
        let model_name := pyStrip (unescapeChars raw)
        if model_name = [] then parseRows rest parsed
        else
          match parse_rating_cell (strip_tags (cells.getD 3 [])) with
          | Except.error e => Except.error e
          | Except.ok (rating, uncertainty) =>
            parseRows rest (dictInsert parsed model_name
              ⟨rating, rating + uncertainty, rating - uncertainty⟩)

/-- `parse_leaderboard_table`: run the row loop on the `<tr>` fragments
of the page and raise `RuntimeError` when the result is empty. -/
def parse_leaderboard_table (html : List Char) : Except (List Char) (Dict ScoreRecord) :=
  match parseRows (findRows html) [] with
  | Except.error e => Except.error e
  | Except.ok parsed =>
    if parsed = [] then Except.error "Parsed 0 models from leaderboard table.".data
    else Except.ok parsed

/-- The ordered list of `(name, record)` pairs the surviving rows
produce, before dict insertion: used to state the last-row-wins claim.
It propagates a rating-cell failure exactly as the row loop does. -/
def rowEntries : List (List Char) → Except (List Char) (List (List Char × ScoreRecord))
  | [] => Except.ok []
  | row :: rest =>
    let cells := findCells row
    if cells.length < 4 then rowEntries rest
    else
      match findModelTitle row with
      | none => rowEntries rest
      | some raw =>
        let model_name := pyStrip (unescapeChars raw)
        if model_name = [] then rowEntries rest
        else
          match parse_rating_cell (strip_tags (cells.getD 3 [])) with
          | Except.error e => Except.error e
          | Except.ok (rating, uncertainty) =>
            match rowEntries rest with
            | Except.error e => Except.error e
            | Except.ok es =>
              Except.ok ((model_name,
                (⟨rating, rating + uncertainty, rating - uncertainty⟩ : ScoreRecord)) :: es)

/-- The value the last pair with the given name assigns, if any:
the reference lookup for the last-row-wins property. -/
def lastValue : List (List Char × ScoreRecord) → List Char → Option ScoreRecord
  | [], _ => none
  | p :: rest, name =>
    match lastValue rest name with
    | some v => some v
    | none => if p.1 = name then some p.2 else none

/-- `build_leaderboard_path`. -/
def build_leaderboard_path (modality category_slug : List Char)
    (style_control : Option Bool) : List Char :=
  match style_control with
  | none => "/leaderboard/".data ++ modality ++ "/".data ++ category_slug
  | some true => "/leaderboard/".data ++ modality ++ "/".data ++ category_slug
  | some false =>
    "/leaderboard/".data ++ modality ++ "/".data ++ category_slug ++ "-no-style-control".data

def ARENA_BASE_URL : List Char := "https://arena.ai".data

/-- Observable behaviour of one `urlopen(request, timeout=...)` call,
following `urllib.request` semantics: a success-status response returns
and its body is read and decoded; a response with a non-2xx status makes
`urlopen` raise `HTTPError` (which still carries a body, unread by
`http_get_text`); connection-level failures raise `URLError`; a timeout
raises `TimeoutError`.  `msg` is `str(exc)` of the raised exception. -/
inductive UrlopenResult where
  | success (body : List Char) : UrlopenResult
  | httpError (code : ℕ) (body : List Char) (msg : List Char) : UrlopenResult
  | urlError (msg : List Char) : UrlopenResult
  | timeoutError (msg : List Char) : UrlopenResult
deriving DecidableEq

/-- The `try` body of `http_get_text`: the decoded body on a normal
return, and `str(exc)` for the three exception classes of the `except`
clause (`HTTPError`, `URLError`, `TimeoutError`), all of which are
caught and retried. -/
def attemptResult : UrlopenResult → Except (List Char) (List Char)
  | UrlopenResult.success body => Except.ok body
  | UrlopenResult.httpError _ _ msg => Except.error msg
  | UrlopenResult.urlError msg => Except.error msg
  | UrlopenResult.timeoutError msg => Except.error msg

/-- `f"Request failed after {retries} retries: {url} ({last_error})"`. -/
def failMsg (retries : ℕ) (url lastError : List Char) : List Char :=
  "Request failed after ".data ++ (toString retries).data ++ " retries: ".data ++
    url ++ " (".data ++ lastError ++ ")".data

/-- The retry loop of `http_get_text`.  Arguments: remaining attempts,
oracle position `k`, Python's `attempt` index, `last_error` (initially
`None`), and the list of durations slept so far; after a failed attempt
that is not the last one (`attempt < retries - 1`, i.e. at least one
attempt remains) it sleeps `1.2 * (attempt + 1)` seconds.  Returns the
result, the next oracle position and the sleep log. -/
def httpGo (net : ℕ → UrlopenResult) (url : List Char) (retries : ℕ) :
    ℕ → ℕ → ℕ → List Char → List ℚ →
      Except (List Char) (List Char) × ℕ × List ℚ
  | 0, k, _attempt, lastError, sleeps =>
    (Except.error (failMsg retries url lastError), k, sleeps)
  | rem + 1, k, attempt, _lastError, sleeps =>
    match attemptResult (net k) with
    | Except.ok body => (Except.ok body, k + 1, sleeps)
    | Except.error m =>
      httpGo net url retries rem (k + 1) (attempt + 1) m
        (if 0 < rem then sleeps ++ [(6 / 5 : ℚ) * ((attempt : ℚ) + 1)] else sleeps)

/-- `http_get_text(url, timeout=75, retries=3)`, with the network
modelled by the oracle `net` consumed from position `k` (one entry per
`urlopen` call; the unused `timeout` is kept for fidelity). -/
def http_get_text (net : ℕ → UrlopenResult) (k : ℕ) (url : List Char)
    (_timeout : ℕ := 75) (retries : ℕ := 3) :
    Except (List Char) (List Char) × ℕ × List ℚ :=
  httpGo net url retries retries k 0 "None".data []

/-- Substring test, modelling Python `in` on strings. -/
def hasSubstr (pat : List Char) : List Char → Bool
  | [] => decide (pat = [])
  | c :: r => pat.isPrefixOf (c :: r) || hasSubstr pat r

/-- `str.lower()` over ASCII. -/
def pyLower (s : List Char) : List Char := s.map lowerC

/-- The fallible body of one iteration of `refresh_categories`: fetch the
page, raise `RuntimeError("No table in response")` when the lowered body
lacks a `<table` marker, else extract.  Returns the outcome (`str(exc)`
of the raised exception on failure) and the next oracle position. -/
def categoryStep (net : ℕ → UrlopenResult) (k : ℕ) (url : List Char) :
    Except (List Char) (Dict ScoreRecord) × ℕ :=
  match http_get_text net k url with
  | (Except.ok html, k2, _) =>
    if hasSubstr "<table".data (pyLower html) = false then
      (Except.error "No table in response".data, k2)
    else (parse_leaderboard_table html, k2)
  | (Except.error e, k2, _) => (Except.error e, k2)

/-- The loop of `refresh_categories` over `(output_key, category_slug)`
pairs: on success the key's entry is overwritten and the key appended to
`updated`; on any failure the document is left untouched and
`(key, str(exc))` appended to `skipped`.  Returns the final document,
`updated`, `skipped`, and the next oracle position. -/
def refreshGo (net : ℕ → UrlopenResult) (modality : List Char) (style_control : Option Bool) :
    List (List Char × List Char) → Dict (Dict ScoreRecord) → ℕ →
      Dict (Dict ScoreRecord) × List (List Char) × List (List Char × List Char) × ℕ
  | [], data, k => (data, [], [], k)
  | (key, slug) :: rest, data, k =>
    match categoryStep net k (ARENA_BASE_URL ++ build_leaderboard_path modality slug style_control) with
    | (Except.ok doc, k2) =>
      let R := refreshGo net modality style_control rest (dictInsert data key doc) k2
      (R.1, key :: R.2.1, R.2.2.1, R.2.2.2)
    | (Except.error e, k2) =>
      let R := refreshGo net modality style_control rest data k2
      (R.1, R.2.1, (key, e) :: R.2.2.1, R.2.2.2)

/-- `refresh_categories(target_data, modality, category_map,
style_control)`: the in-place mutation of `target_data` is modelled by
returning the updated document alongside `updated` and `skipped`. -/
def refresh_categories (net : ℕ → UrlopenResult) (k : ℕ)
    (target_data : Dict (Dict ScoreRecord)) (modality : List Char)
    (category_map : List (List Char × List Char)) (style_control : Option Bool) :
    Dict (Dict ScoreRecord) × List (List Char) × List (List Char × List Char) × ℕ :=
  refreshGo net modality style_control category_map target_data k

/-! ### Basic lemmas about the embedded operations -/

lemma dictGet_dictInsert {α : Type} (d : Dict α) (key : List Char) (v : α) (q : List Char) :
    dictGet (dictInsert d key v) q = if key = q then some v else dictGet d q := by
  induction d with
  | nil => simp [dictInsert, dictGet]
  | cons p rest ih =>
    obtain ⟨k0, v0⟩ := p
    by_cases h1 : k0 = key
    · subst h1
      by_cases h2 : k0 = q <;> simp [dictInsert, dictGet, h2]
    · by_cases h2 : k0 = q
      · have hkq : ¬ key = q := fun hq => h1 (h2.trans hq.symm)
        have hqk : ¬ q = key := fun hq => h1 (h2.trans hq)
        simp [dictInsert, dictGet, h1, h2, hkq, hqk]
      · simp [dictInsert, dictGet, h1, h2, ih]

lemma mem_dictInsert {α : Type} {d : Dict α} {key : List Char} {v : α} {p : List Char × α}
    (h : p ∈ dictInsert d key v) : p ∈ d ∨ p.2 = v := by
  induction d with
  | nil =>
    simp [dictInsert] at h
    right
    rw [h]
  | cons q rest ih =>
    obtain ⟨k0, v0⟩ := q
    by_cases h1 : k0 = key
    · subst h1
      simp [dictInsert] at h
      rcases h with h | h
      · right; rw [h]
      · left; exact List.mem_cons_of_mem _ h
    · simp [dictInsert, h1] at h
      rcases h with h | h
      · left; rw [h]; exact List.mem_cons_self _ _
      · rcases ih h with h2 | h2
        · left; exact List.mem_cons_of_mem _ h2
        · right; exact h2

lemma dictInsert_ne_nil {α : Type} (d : Dict α) (key : List Char) (v : α) :
    dictInsert d key v ≠ [] := by
  cases d with
  | nil => simp [dictInsert]
  | cons p rest =>
    obtain ⟨k0, v0⟩ := p
    by_cases h : k0 = key <;> simp [dictInsert, h]

lemma pyFloatOfToken_nonneg (s : List Char) : 0 ≤ pyFloatOfToken s := by
  rcases h : splitAtChar '.' s with _ | ⟨ip, fp⟩
  · simp [pyFloatOfToken, h]
  · simp only [pyFloatOfToken, h]
    positivity

lemma parse_rating_cell_uncertainty_nonneg {cell : List Char} {r u : ℚ}
    (h : parse_rating_cell cell = Except.ok (r, u)) : 0 ≤ u := by
  unfold parse_rating_cell at h
  rcases hn : findNumbers cell with _ | ⟨n0, rest⟩
  · rw [hn] at h; simp at h
  · rw [hn] at h
    rcases rest with _ | ⟨n1, rest2⟩ <;> simp at h
    · rw [← h.2]
    · rw [← h.2]; exact pyFloatOfToken_nonneg _

lemma parse_rating_cell_single_token {cell : List Char} {r u : ℚ}
    (h : parse_rating_cell cell = Except.ok (r, u))
    (hlen : (findNumbers cell).length = 1) : u = 0 := by
  unfold parse_rating_cell at h
  rcases hn : findNumbers cell with _ | ⟨n0, rest⟩
  · rw [hn] at h; simp at h
  · rw [hn] at hlen
    simp at hlen
    rw [hn, hlen] at h
    simp at h
    exact h.2.symm

lemma parse_table_ok_elim {html : List Char} {m : Dict ScoreRecord}
    (h : parse_leaderboard_table html = Except.ok m) :
    parseRows (findRows html) [] = Except.ok m ∧ m ≠ [] := by
  unfold parse_leaderboard_table at h
  rcases hp : parseRows (findRows html) [] with e | parsed
  · rw [hp] at h; simp at h
  · rw [hp] at h
    by_cases hnil : parsed = []
    · simp [hnil] at h
    · simp [hnil] at h
      subst h
      exact ⟨rfl, hnil⟩

lemma parse_table_error_of_parseRows {html e : List Char}
    (h : parseRows (findRows html) [] = Except.error e) :
    parse_leaderboard_table html = Except.error e := by
  unfold parse_leaderboard_table
  rw [h]

lemma parseRows_mem_bounds :
    ∀ (rows : List (List Char)) (parsed m : Dict ScoreRecord),
      parseRows rows parsed = Except.ok m →
      (∀ p ∈ parsed, p.2.rating_q025 ≤ p.2.rating ∧ p.2.rating ≤ p.2.rating_q975) →
      ∀ p ∈ m, p.2.rating_q025 ≤ p.2.rating ∧ p.2.rating ≤ p.2.rating_q975 := by
  intro rows
  induction rows with
  | nil =>
    intro parsed m h hp
    simp [parseRows] at h
    subst h
    exact hp
  | cons row rest ih =>
    intro parsed m h hp
    simp only [parseRows] at h
    split at h
    · exact ih _ _ h hp
    · split at h
      · exact ih _ _ h hp
      · rename_i raw heqt
        split at h
        · exact ih _ _ h hp
        · split at h
          · cases h
          · rename_i hname hmatch r u hrc
            refine ih _ _ h ?_
            intro p hmem
            rcases mem_dictInsert hmem with hin | hv
            · exact hp _ hin
            · have hu := parse_rating_cell_uncertainty_nonneg hrc
              rw [hv]
              constructor <;> simp <;> linarith

lemma parseRows_eq_rowEntries :
    ∀ (rows : List (List Char)) (parsed : Dict ScoreRecord),
      parseRows rows parsed =
        (rowEntries rows).map (fun es => es.foldl (fun acc p => dictInsert acc p.1 p.2) parsed) := by
  intro rows
  induction rows with
  | nil => intro parsed; simp [parseRows, rowEntries, Except.map]
  | cons row rest ih =>
    intro parsed
    by_cases h4 : (findCells row).length < 4
    · simp [parseRows, rowEntries, h4, ih]
    · rcases ht : findModelTitle row with _ | raw
      · simp [parseRows, rowEntries, h4, ht, ih]
      · by_cases hname : pyStrip (unescapeChars raw) = []
        · simp [parseRows, rowEntries, h4, ht, hname, ih]
        · rcases hrc : parse_rating_cell (strip_tags ((findCells row).getD 3 [])) with e | ru
          · rw [List.getD_eq_getElem?_getD] at hrc
            simp [parseRows, rowEntries, h4, ht, hname, hrc, Except.map]
          · obtain ⟨r, u⟩ := ru
            rw [List.getD_eq_getElem?_getD] at hrc
            rcases hre : rowEntries rest with e2 | es
            · have := ih (dictInsert parsed (pyStrip (unescapeChars raw))
                ⟨r, r + u, r - u⟩)
              rw [hre] at this
              simp [parseRows, rowEntries, h4, ht, hname, hrc, hre, this, Except.map]
            · have := ih (dictInsert parsed (pyStrip (unescapeChars raw))
                ⟨r, r + u, r - u⟩)
              rw [hre] at this
              simp [parseRows, rowEntries, h4, ht, hname, hrc, hre, this, Except.map]

lemma dictGet_foldl_insert :
    ∀ (es : List (List Char × ScoreRecord)) (d : Dict ScoreRecord) (name : List Char),
      dictGet (es.foldl (fun acc p => dictInsert acc p.1 p.2) d) name =
        match lastValue es name with
        | some v => some v
        | none => dictGet d name := by
  intro es
  induction es with
  | nil => intro d name; simp [lastValue]
  | cons p rest ih =>
    intro d name
    simp only [List.foldl_cons, lastValue]
    rw [ih]
    rcases hlv : lastValue rest name with _ | v
    · by_cases hpn : p.1 = name <;> simp [hlv, hpn, dictGet_dictInsert]
    · simp [hlv]

lemma parseRows_error_of_bad_cell :
    ∀ (rows : List (List Char)) (parsed : Dict ScoreRecord) (row raw : List Char),
      row ∈ rows →
      ¬ (findCells row).length < 4 →
      findModelTitle row = some raw →
      pyStrip (unescapeChars raw) ≠ [] →
      findNumbers (strip_tags ((findCells row).getD 3 [])) = [] →
      ∃ e, parseRows rows parsed = Except.error e := by
  intro rows
  induction rows with
  | nil =>
    intro parsed row raw hmem
    simp at hmem
  | cons row0 rest ih =>
    intro parsed row raw hmem h4 ht hname hnum
    rcases List.mem_cons.mp hmem with heq | hmem2
    · subst heq
      have hrc : parse_rating_cell (strip_tags ((findCells row).getD 3 [])) =
          Except.error ("No rating number parsed from: ".data ++
            pyRepr (strip_tags ((findCells row).getD 3 []))) := by
        unfold parse_rating_cell
        rw [hnum]
      rw [List.getD_eq_getElem?_getD] at hrc
      refine ⟨"No rating number parsed from: ".data ++
        pyRepr (strip_tags ((findCells row)[3]?.getD [])), ?_⟩
      simp [parseRows, h4, ht, hname, hrc]
    · by_cases g4 : (findCells row0).length < 4
      · obtain ⟨e, he⟩ := ih parsed row raw hmem2 h4 ht hname hnum
        exact ⟨e, by simp [parseRows, g4, he]⟩
      · rcases gt : findModelTitle row0 with _ | raw0
        · obtain ⟨e, he⟩ := ih parsed row raw hmem2 h4 ht hname hnum
          exact ⟨e, by simp [parseRows, g4, gt, he]⟩
        · by_cases gname : pyStrip (unescapeChars raw0) = []
          · obtain ⟨e, he⟩ := ih parsed row raw hmem2 h4 ht hname hnum
            exact ⟨e, by simp [parseRows, g4, gt, gname, he]⟩
          · rcases grc : parse_rating_cell (strip_tags ((findCells row0).getD 3 [])) with e0 | ru
            · rw [List.getD_eq_getElem?_getD] at grc
              exact ⟨e0, by simp [parseRows, g4, gt, gname, grc]⟩
            · obtain ⟨r, u⟩ := ru
              rw [List.getD_eq_getElem?_getD] at grc
              obtain ⟨e, he⟩ := ih (dictInsert parsed (pyStrip (unescapeChars raw0))
                ⟨r, r + u, r - u⟩) row raw hmem2 h4 ht hname hnum
              exact ⟨e, by simp [parseRows, g4, gt, gname, grc, he]⟩

lemma parse_table_ok_ne_nil {html : List Char} {m : Dict ScoreRecord}
    (h : parse_leaderboard_table html = Except.ok m) : m ≠ [] :=
  (parse_table_ok_elim h).2

lemma categoryStep_ok_ne_nil {net : ℕ → UrlopenResult} {k : ℕ} {url : List Char}
    {doc : Dict ScoreRecord} {k2 : ℕ}
    (h : categoryStep net k url = (Except.ok doc, k2)) : doc ≠ [] := by
  unfold categoryStep at h
  rcases hh : http_get_text net k url with ⟨res, k3, sl⟩
  rw [hh] at h
  rcases res with e | html
  · simp at h
  · by_cases htab : hasSubstr "<table".data (pyLower html) = false
    · simp [htab] at h
    · simp [htab] at h
      exact parse_table_ok_ne_nil h.1

lemma http_get_text_ok {net : ℕ → UrlopenResult} {k : ℕ} {body : List Char} (url : List Char)
    (h : net k = UrlopenResult.success body) :
    http_get_text net k url = (Except.ok body, k + 1, []) := by
  simp [http_get_text, httpGo, attemptResult, h]

lemma refreshGo_untouched (net : ℕ → UrlopenResult) (modality : List Char) (sc : Option Bool) :
    ∀ (cmap : List (List Char × List Char)) (data : Dict (Dict ScoreRecord)) (k : ℕ)
      (key : List Char), key ∉ cmap.map Prod.fst →
      dictGet (refreshGo net modality sc cmap data k).1 key = dictGet data key := by
  intro cmap
  induction cmap with
  | nil => intro data k key _; simp [refreshGo]
  | cons x rest ih =>
    intro data k key hkey
    obtain ⟨key0, slug0⟩ := x
    simp only [List.map_cons, List.mem_cons] at hkey
    push_neg at hkey
    obtain ⟨hne, hnotin⟩ := hkey
    rcases hstep : categoryStep net k
        (ARENA_BASE_URL ++ build_leaderboard_path modality slug0 sc) with ⟨res, k2⟩
    rcases res with e | doc
    · simp only [refreshGo, hstep]
      exact ih data k2 key hnotin
    · simp only [refreshGo, hstep]
      rw [ih (dictInsert data key0 doc) k2 key hnotin, dictGet_dictInsert,
        if_neg (fun h => hne h.symm)]

lemma refreshGo_skipped_keys (net : ℕ → UrlopenResult) (modality : List Char) (sc : Option Bool) :
    ∀ (cmap : List (List Char × List Char)) (data : Dict (Dict ScoreRecord)) (k : ℕ)
      (key reason : List Char),
      (key, reason) ∈ (refreshGo net modality sc cmap data k).2.2.1 →
      key ∈ cmap.map Prod.fst := by
  intro cmap
  induction cmap with
  | nil => intro data k key reason h; simp [refreshGo] at h
  | cons x rest ih =>
    intro data k key reason h
    obtain ⟨key0, slug0⟩ := x
    rcases hstep : categoryStep net k
        (ARENA_BASE_URL ++ build_leaderboard_path modality slug0 sc) with ⟨res, k2⟩
    rcases res with e | doc
    · simp only [refreshGo, hstep] at h
      rcases List.mem_cons.mp h with heq | hmem
      · have hk : key = key0 := congrArg Prod.fst heq
        rw [List.map_cons, hk]
        exact List.mem_cons_self _ _
      · rw [List.map_cons]
        exact List.mem_cons_of_mem _ (ih _ _ _ _ hmem)
    · simp only [refreshGo, hstep] at h
      rw [List.map_cons]
      exact List.mem_cons_of_mem _ (ih _ _ _ _ h)

lemma refreshGo_no_empty_write (net : ℕ → UrlopenResult) (modality : List Char) (sc : Option Bool) :
    ∀ (cmap : List (List Char × List Char)) (data : Dict (Dict ScoreRecord)) (k : ℕ)
      (key : List Char),
      dictGet (refreshGo net modality sc cmap data k).1 key = some [] →
      dictGet data key = some [] := by
  intro cmap
  induction cmap with
  | nil => intro data k key h; simpa [refreshGo] using h
  | cons x rest ih =>
    intro data k key h
    obtain ⟨key0, slug0⟩ := x
    rcases hstep : categoryStep net k
        (ARENA_BASE_URL ++ build_leaderboard_path modality slug0 sc) with ⟨res, k2⟩
    rcases res with e | doc
    · simp only [refreshGo, hstep] at h
      exact ih _ _ _ h
    · simp only [refreshGo, hstep] at h
      have h2 := ih _ _ _ h
      rw [dictGet_dictInsert] at h2
      by_cases hk : key0 = key
      · rw [if_pos hk] at h2
        exact absurd (Option.some.inj h2) (categoryStep_ok_ne_nil hstep)
      · rw [if_neg hk] at h2
        exact h2

lemma refreshGo_skip_preserved (net : ℕ → UrlopenResult) (modality : List Char)
    (sc : Option Bool) :
    ∀ (cmap : List (List Char × List Char)), (cmap.map Prod.fst).Nodup →
      ∀ (data : Dict (Dict ScoreRecord)) (k : ℕ) (key reason : List Char),
        (key, reason) ∈ (refreshGo net modality sc cmap data k).2.2.1 →
        dictGet (refreshGo net modality sc cmap data k).1 key = dictGet data key := by
  intro cmap
  induction cmap with
  | nil => intro _ data k key reason h; simp [refreshGo] at h
  | cons x rest ih =>
    intro hnd data k key reason h
    obtain ⟨key0, slug0⟩ := x
    rw [List.map_cons, List.nodup_cons] at hnd
    obtain ⟨hnotin, hnd2⟩ := hnd
    rcases hstep : categoryStep net k
        (ARENA_BASE_URL ++ build_leaderboard_path modality slug0 sc) with ⟨res, k2⟩
    rcases res with e | doc
    · simp only [refreshGo, hstep] at h ⊢
      rcases List.mem_cons.mp h with heq | hmem
      · have hk : key = key0 := congrArg Prod.fst heq
        subst hk
        exact refreshGo_untouched net modality sc rest data k2 key hnotin
      · exact ih hnd2 data k2 key reason hmem
    · simp only [refreshGo, hstep] at h ⊢
      have hkey : key ∈ rest.map Prod.fst := refreshGo_skipped_keys net modality sc rest _ _ _ _ h
      have hne : ¬ key0 = key := fun hk => hnotin (hk ▸ hkey)
      rw [ih hnd2 _ k2 key reason h, dictGet_dictInsert, if_neg hne]

lemma refreshGo_covered (net : ℕ → UrlopenResult) (modality : List Char) (sc : Option Bool) :
    ∀ (cmap : List (List Char × List Char)) (data : Dict (Dict ScoreRecord)) (k : ℕ)
      (key slug : List Char), (key, slug) ∈ cmap →
      key ∈ (refreshGo net modality sc cmap data k).2.1 ∨
      ∃ reason, (key, reason) ∈ (refreshGo net modality sc cmap data k).2.2.1 := by
  intro cmap
  induction cmap with
  | nil => intro data k key slug h; simp at h
  | cons x rest ih =>
    intro data k key slug h
    obtain ⟨key0, slug0⟩ := x
    rcases hstep : categoryStep net k
        (ARENA_BASE_URL ++ build_leaderboard_path modality slug0 sc) with ⟨res, k2⟩
    rcases List.mem_cons.mp h with heq | hmem
    · have hk : key = key0 := congrArg Prod.fst heq
      subst hk
      rcases res with e | doc
      · simp only [refreshGo, hstep]
        exact Or.inr ⟨e, List.mem_cons_self _ _⟩
      · simp only [refreshGo, hstep]
        exact Or.inl (List.mem_cons_self _ _)
    · rcases res with e | doc
      · simp only [refreshGo, hstep]
        rcases ih data k2 key slug hmem with hu | ⟨reason, hs⟩
        · exact Or.inl hu
        · exact Or.inr ⟨reason, List.mem_cons_of_mem _ hs⟩
      · simp only [refreshGo, hstep]
        rcases ih (dictInsert data key0 doc) k2 key slug hmem with hu | ⟨reason, hs⟩
        · exact Or.inl (List.mem_cons_of_mem _ hu)
        · exact Or.inr ⟨reason, hs⟩

lemma failMsg_three (url m : List Char) :
    failMsg 3 url m =
      "Request failed after 3 retries: ".data ++ url ++ " (".data ++ m ++ ")".data := by
  have h : (("Request failed after ".data : List Char) ++ ((toString (3 : ℕ)).data ++
      " retries: ".data)) = "Request failed after 3 retries: ".data := by decide
  unfold failMsg
  rw [← h]
  simp [List.append_assoc]

/-! ### Claim theorems -/

/-- Claim C8: for every modality string and category slug,
`build_leaderboard_path` is a pure total function returning
`/leaderboard/{modality}/{slug}` when the variant flag is absent (None)
and also when it is on (True) — so absent and on yield identical paths —
and returning the same canonical path with the fixed suffix
`-no-style-control` appended when the flag is off (False). -/
theorem category_resolver_paths (modality slug : List Char) :
    build_leaderboard_path modality slug none =
      "/leaderboard/".data ++ modality ++ "/".data ++ slug ∧
    build_leaderboard_path modality slug (some true) =
      "/leaderboard/".data ++ modality ++ "/".data ++ slug ∧
    build_leaderboard_path modality slug (some false) =
      ("/leaderboard/".data ++ modality ++ "/".data ++ slug) ++ "-no-style-control".data := by
  refine ⟨rfl, rfl, ?_⟩
  simp [build_leaderboard_path, List.append_assoc]

/-- Claim C2: applying the table extractor to HTML consisting of the
single row `<tr><td>1</td><td>X</td><td>1200</td><td><a title="Model
A">A</a>1200±15</td></tr>` yields exactly the mapping
`{"Model A": {rating: 1200.0, rating_q975: 1215.0, rating_q025: 1185.0}}`
(name from the row's first anchor title, score and uncertainty from the
numeric tokens of the stripped fourth cell). -/
theorem concrete_extraction_scenario :
    parse_leaderboard_table
      "<tr><td>1</td><td>X</td><td>1200</td><td><a title=\"Model A\">A</a>1200±15</td></tr>".data =
      Except.ok [("Model A".data, ⟨1200, 1215, 1185⟩)] := by
  have h : parse_leaderboard_table
      "<tr><td>1</td><td>X</td><td>1200</td><td><a title=\"Model A\">A</a>1200±15</td></tr>".data =
      Except.ok [("Model A".data,
        ⟨pyFloatOfToken "1200".data,
         pyFloatOfToken "1200".data + pyFloatOfToken "15".data,
         pyFloatOfToken "1200".data - pyFloatOfToken "15".data⟩)] := rfl
  have e1 : pyFloatOfToken "1200".data = (1200 : ℚ) := by
    norm_num [pyFloatOfToken, show splitAtChar '.' "1200".data = none from by decide,
      show natOfDigits "1200".data = 1200 from by decide]
  have e2 : pyFloatOfToken "15".data = (15 : ℚ) := by
    norm_num [pyFloatOfToken, show splitAtChar '.' "15".data = none from by decide,
      show natOfDigits "15".data = 15 from by decide]
  rw [h, e1, e2]
  norm_num

/-- Claim C10: because the cell-count and anchor-title-name checks are
applied to a row before its fourth cell is parsed for numbers, any row
with fewer than four cells, or with no anchor title, or with an empty
trimmed name, is silently discarded (the row loop continues on the
remaining rows with the same accumulator) and never triggers the
category-aborting no-numeric-token failure — even when that row's fourth
cell contains no numeric token. -/
theorem filter_order_shields (row : List Char) (rest : List (List Char))
    (parsed : Dict ScoreRecord)
    (hbad : (findCells row).length < 4 ∨ findModelTitle row = none ∨
      ∃ raw, findModelTitle row = some raw ∧ pyStrip (unescapeChars raw) = []) :
    parseRows (row :: rest) parsed = parseRows rest parsed := by
  rcases hbad with h | h | ⟨raw, ht, hname⟩
  · simp [parseRows, h]
  · simp [parseRows, h]
  · simp [parseRows, ht, hname]

theorem filter_order_shields_witness :
    parseRows ["<tr><td>1</td><td>2</td><td>3</td><td>none</td></tr>".data,
        "<tr><td>1</td><td>B</td><td>5</td><td><a title=\"M\">m</a>7</td></tr>".data] [] =
      parseRows ["<tr><td>1</td><td>B</td><td>5</td><td><a title=\"M\">m</a>7</td></tr>".data] [] :=
  filter_order_shields "<tr><td>1</td><td>2</td><td>3</td><td>none</td></tr>".data
    ["<tr><td>1</td><td>B</td><td>5</td><td><a title=\"M\">m</a>7</td></tr>".data] []
    (Or.inr (Or.inl (by decide)))

/-- Claim C3: for every ScoreRecord produced by the table extractor (any
input HTML, any row), the record satisfies
`rating_q025 ≤ rating ≤ rating_q975`; and when the score cell contains
only one numeric token the uncertainty is `0`, so both bounds equal the
rating (`rating_q975 = rating + 0`, `rating_q025 = rating - 0`). -/
theorem bound_invariant :
    (∀ (html : List Char) (m : Dict ScoreRecord) (name : List Char) (rec : ScoreRecord),
        parse_leaderboard_table html = Except.ok m → (name, rec) ∈ m →
        rec.rating_q025 ≤ rec.rating ∧ rec.rating ≤ rec.rating_q975) ∧
    (∀ (cell : List Char) (r u : ℚ), parse_rating_cell cell = Except.ok (r, u) →
        0 ≤ u ∧ ((findNumbers cell).length = 1 → u = 0)) := by
  constructor
  · intro html m name rec h hmem
    have hp := (parse_table_ok_elim h).1
    exact parseRows_mem_bounds _ _ _ hp (by simp) (name, rec) hmem
  · intro cell r u h
    exact ⟨parse_rating_cell_uncertainty_nonneg h,
      fun hlen => parse_rating_cell_single_token h hlen⟩

theorem bound_invariant_witness :
    ((⟨pyFloatOfToken "7".data, pyFloatOfToken "7".data + 0,
        pyFloatOfToken "7".data - 0⟩ : ScoreRecord).rating_q025 ≤
      (⟨pyFloatOfToken "7".data, pyFloatOfToken "7".data + 0,
        pyFloatOfToken "7".data - 0⟩ : ScoreRecord).rating ∧
      (⟨pyFloatOfToken "7".data, pyFloatOfToken "7".data + 0,
        pyFloatOfToken "7".data - 0⟩ : ScoreRecord).rating ≤
      (⟨pyFloatOfToken "7".data, pyFloatOfToken "7".data + 0,
        pyFloatOfToken "7".data - 0⟩ : ScoreRecord).rating_q975) :=
  bound_invariant.1 "<tr><td>1</td><td>x</td><td>9</td><td><a title='M'>m</a>7</td></tr>".data
    [("M".data, ⟨pyFloatOfToken "7".data, pyFloatOfToken "7".data + 0,
      pyFloatOfToken "7".data - 0⟩)]
    "M".data
    ⟨pyFloatOfToken "7".data, pyFloatOfToken "7".data + 0, pyFloatOfToken "7".data - 0⟩
    rfl (List.mem_cons_self _ _)

/-- Claim C4: for any input HTML, the extractor's output maps each name
to the record of the LAST surviving row that produced that name — in
particular, when two parseable rows yield the same display name but
different score values, the later row's record wins. -/
theorem last_row_wins (html : List Char) (m : Dict ScoreRecord)
    (h : parse_leaderboard_table html = Except.ok m) :
    ∃ entries, rowEntries (findRows html) = Except.ok entries ∧
      ∀ name, dictGet m name = lastValue entries name := by
  have hp := (parse_table_ok_elim h).1
  rw [parseRows_eq_rowEntries] at hp
  rcases hre : rowEntries (findRows html) with e | es
  · rw [hre] at hp; simp [Except.map] at hp
  · rw [hre] at hp
    simp [Except.map] at hp
    refine ⟨es, rfl, fun name => ?_⟩
    rw [← hp, dictGet_foldl_insert]
    rcases hlv : lastValue es name with _ | v <;> simp [hlv, dictGet]

theorem last_row_wins_witness :
    ∃ entries,
      rowEntries (findRows ("<table><tr><td>1</td><td>x</td><td>1</td><td><a title=\"Model A\">a</a>1200</td></tr><tr><td>2</td><td>y</td><td>2</td><td><a title=\"Model A\">b</a>1300</td></tr></table>".data)) =
        Except.ok entries ∧
      ∀ name,
        dictGet [("Model A".data,
          (⟨pyFloatOfToken "1300".data, pyFloatOfToken "1300".data + 0,
            pyFloatOfToken "1300".data - 0⟩ : ScoreRecord))] name =
        lastValue entries name :=
  last_row_wins
    ("<table><tr><td>1</td><td>x</td><td>1</td><td><a title=\"Model A\">a</a>1200</td></tr><tr><td>2</td><td>y</td><td>2</td><td><a title=\"Model A\">b</a>1300</td></tr></table>".data)
    [("Model A".data,
      ⟨pyFloatOfToken "1300".data, pyFloatOfToken "1300".data + 0,
        pyFloatOfToken "1300".data - 0⟩)]
    rfl

/-- Claim C5: extraction of a page from which zero rows survive the
filters fails (raises `Parsed 0 models from leaderboard table.`) rather
than returning an empty mapping; extraction never returns an empty
mapping; `refresh_categories` never writes an empty mapping over an
entry (an empty final entry was already empty); and for a category whose
fetched page has a table marker but no surviving rows the category is
skipped with that message and the document is unchanged. -/
theorem empty_table_rejection :
    (∀ html : List Char, parseRows (findRows html) [] = Except.ok [] →
        parse_leaderboard_table html =
          Except.error "Parsed 0 models from leaderboard table.".data) ∧
    (∀ (html : List Char) (m : Dict ScoreRecord),
        parse_leaderboard_table html = Except.ok m → m ≠ []) ∧
    (∀ (net : ℕ → UrlopenResult) (k : ℕ) (data : Dict (Dict ScoreRecord))
        (modality : List Char) (cmap : List (List Char × List Char)) (sc : Option Bool)
        (key : List Char),
        dictGet (refresh_categories net k data modality cmap sc).1 key = some [] →
        dictGet data key = some []) ∧
    (∀ (net : ℕ → UrlopenResult) (k : ℕ) (data : Dict (Dict ScoreRecord))
        (modality key slug html : List Char) (sc : Option Bool),
        net k = UrlopenResult.success html →
        hasSubstr "<table".data (pyLower html) = true →
        parseRows (findRows html) [] = Except.ok [] →
        refresh_categories net k data modality [(key, slug)] sc =
          (data, [], [(key, "Parsed 0 models from leaderboard table.".data)], k + 1)) := by
  have hparse : ∀ html : List Char, parseRows (findRows html) [] = Except.ok [] →
      parse_leaderboard_table html =
        Except.error "Parsed 0 models from leaderboard table.".data := by
    intro html h
    unfold parse_leaderboard_table
    rw [h]
    simp
  refine ⟨hparse, ?_, ?_, ?_⟩
  · intro html m h
    exact parse_table_ok_ne_nil h
  · intro net k data modality cmap sc key h
    exact refreshGo_no_empty_write net modality sc cmap data k key h
  · intro net k data modality key slug html sc hnet htab hrows
    have hget := http_get_text_ok (ARENA_BASE_URL ++ build_leaderboard_path modality slug sc) hnet
    have hstep : categoryStep net k (ARENA_BASE_URL ++ build_leaderboard_path modality slug sc) =
        (Except.error "Parsed 0 models from leaderboard table.".data, k + 1) := by
      unfold categoryStep
      rw [hget]
      simp [htab, hparse html hrows]
    simp [refresh_categories, refreshGo, hstep]

theorem empty_table_rejection_witness :
    refresh_categories (fun _ => UrlopenResult.success "<table><tr><td>x</td></tr></table>".data)
        0 [] "text".data [("full".data, "overall".data)] none =
      ([], [], [("full".data, "Parsed 0 models from leaderboard table.".data)], 0 + 1) :=
  empty_table_rejection.2.2.2
    (fun _ => UrlopenResult.success "<table><tr><td>x</td></tr></table>".data)
    0 [] "text".data "full".data "overall".data
    "<table><tr><td>x</td></tr></table>".data none rfl (by decide) rfl

/-- Claim C9: if any row that passes the filters (at least four cells,
non-empty anchor-title name) has a fourth cell whose stripped text
contains zero numeric tokens, extraction of the entire page fails,
discarding all rows including ones already parsed, and
`refresh_categories` records the category as Skipped with the failure's
message while leaving the document unchanged. -/
theorem no_rating_aborts_category (html row raw : List Char)
    (hrow : row ∈ findRows html)
    (hcells : 4 ≤ (findCells row).length)
    (htitle : findModelTitle row = some raw)
    (hname : pyStrip (unescapeChars raw) ≠ [])
    (hnum : findNumbers (strip_tags ((findCells row).getD 3 [])) = []) :
    (∃ e, parse_leaderboard_table html = Except.error e) ∧
    (∀ (net : ℕ → UrlopenResult) (k : ℕ) (data : Dict (Dict ScoreRecord))
        (modality key slug : List Char) (sc : Option Bool),
        net k = UrlopenResult.success html →
        hasSubstr "<table".data (pyLower html) = true →
        ∃ e, parse_leaderboard_table html = Except.error e ∧
          refresh_categories net k data modality [(key, slug)] sc =
            (data, [], [(key, e)], k + 1)) := by
  obtain ⟨e, he⟩ := parseRows_error_of_bad_cell (findRows html) [] row raw hrow
    (Nat.not_lt.mpr hcells) htitle hname hnum
  have hpt := parse_table_error_of_parseRows he
  refine ⟨⟨e, hpt⟩, ?_⟩
  intro net k data modality key slug sc hnet htab
  have hget := http_get_text_ok (ARENA_BASE_URL ++ build_leaderboard_path modality slug sc) hnet
  have hstep : categoryStep net k (ARENA_BASE_URL ++ build_leaderboard_path modality slug sc) =
      (Except.error e, k + 1) := by
    unfold categoryStep
    rw [hget]
    simp [htab, hpt]
  exact ⟨e, hpt, by simp [refresh_categories, refreshGo, hstep]⟩

theorem no_rating_aborts_category_witness :
    ∃ e, parse_leaderboard_table
      "<table><tr><td>1</td><td>x</td><td>y</td><td><a title='Bad'>b</a>none</td></tr></table>".data =
      Except.error e :=
  (no_rating_aborts_category
    "<table><tr><td>1</td><td>x</td><td>y</td><td><a title='Bad'>b</a>none</td></tr></table>".data
    "<tr><td>1</td><td>x</td><td>y</td><td><a title='Bad'>b</a>none</td></tr>".data
    "Bad".data (by decide) (by decide) (by decide) (by decide) (by decide)).1

/-- Claim C1: for every category key processed by `refresh_categories`
(keys are unique, coming from a Python dict), if any step of its
fetch/check/extract pipeline fails, the document's entry for that key
after the call equals its entry before the call; keys outside the
category map are untouched; processing continues: every key of the map
ends up either updated or skipped with a recorded reason; and a failing
step records exactly the `(key, str(exc))` pair in the skipped list with
the key's entry preserved. -/
theorem partial_failure_preservation (net : ℕ → UrlopenResult) (k : ℕ)
    (data : Dict (Dict ScoreRecord)) (modality : List Char)
    (cmap : List (List Char × List Char)) (sc : Option Bool)
    (hnd : (cmap.map Prod.fst).Nodup) :
    (∀ key reason, (key, reason) ∈ (refresh_categories net k data modality cmap sc).2.2.1 →
        dictGet (refresh_categories net k data modality cmap sc).1 key = dictGet data key) ∧
    (∀ key, key ∉ cmap.map Prod.fst →
        dictGet (refresh_categories net k data modality cmap sc).1 key = dictGet data key) ∧
    (∀ key slug, (key, slug) ∈ cmap →
        key ∈ (refresh_categories net k data modality cmap sc).2.1 ∨
        ∃ reason, (key, reason) ∈ (refresh_categories net k data modality cmap sc).2.2.1) ∧
    (∀ key slug rest e k2, cmap = (key, slug) :: rest →
        categoryStep net k (ARENA_BASE_URL ++ build_leaderboard_path modality slug sc) =
          (Except.error e, k2) →
        (key, e) ∈ (refresh_categories net k data modality cmap sc).2.2.1 ∧
        dictGet (refresh_categories net k data modality cmap sc).1 key = dictGet data key) := by
  refine ⟨?_, ?_, ?_, ?_⟩
  · intro key reason h
    exact refreshGo_skip_preserved net modality sc cmap hnd data k key reason h
  · intro key h
    exact refreshGo_untouched net modality sc cmap data k key h
  · intro key slug h
    exact refreshGo_covered net modality sc cmap data k key slug h
  · intro key slug rest e k2 hcm hstep
    subst hcm
    rw [List.map_cons, List.nodup_cons] at hnd
    simp only [refresh_categories, refreshGo, hstep]
    exact ⟨List.mem_cons_self _ _,
      refreshGo_untouched net modality sc rest data k2 key hnd.1⟩

theorem partial_failure_preservation_witness :
    dictGet (refresh_categories (fun _ => UrlopenResult.urlError "boom".data) 0
        [("full".data, [("M".data, ⟨1, 1, 1⟩)])] "text".data
        [("full".data, "overall".data)] none).1 "full".data =
      dictGet [("full".data, [("M".data, (⟨1, 1, 1⟩ : ScoreRecord))])] "full".data :=
  (partial_failure_preservation (fun _ => UrlopenResult.urlError "boom".data) 0
    [("full".data, [("M".data, ⟨1, 1, 1⟩)])] "text".data
    [("full".data, "overall".data)] none (by decide)).1 "full".data
    "Request failed after 3 retries: https://arena.ai/leaderboard/text/overall (boom)".data
    (by decide)

/-- Claim C6: when every one of the default 3 attempts of `http_get_text`
fails with an error of the caught classes, the function sleeps
`1.2 * k` seconds after the k-th failed attempt for k = 1, 2 (none after
the last attempt) and raises a single failure whose message is
`Request failed after 3 retries: ` followed by the URL and the last
underlying error; in `refresh_categories` this yields the category
skipped with that message and the document unchanged. -/
theorem retry_exhaustion (net : ℕ → UrlopenResult) (k : ℕ) (url : List Char)
    (data : Dict (Dict ScoreRecord)) (modality key slug : List Char) (sc : Option Bool)
    (m0 m1 m2 : List Char)
    (h0 : attemptResult (net k) = Except.error m0)
    (h1 : attemptResult (net (k + 1)) = Except.error m1)
    (h2 : attemptResult (net (k + 2)) = Except.error m2) :
    http_get_text net k url =
      (Except.error ("Request failed after 3 retries: ".data ++ url ++
          " (".data ++ m2 ++ ")".data),
        k + 3, [(6 / 5 : ℚ) * 1, (6 / 5 : ℚ) * 2]) ∧
    refresh_categories net k data modality [(key, slug)] sc =
      (data, [], [(key, "Request failed after 3 retries: ".data ++
          (ARENA_BASE_URL ++ build_leaderboard_path modality slug sc) ++
          " (".data ++ m2 ++ ")".data)], k + 3) := by
  have hfail : ∀ u : List Char, http_get_text net k u =
      (Except.error ("Request failed after 3 retries: ".data ++ u ++
          " (".data ++ m2 ++ ")".data),
        k + 3, [(6 / 5 : ℚ) * 1, (6 / 5 : ℚ) * 2]) := by
    intro u
    have h2' : attemptResult (net (k + 1 + 1)) = Except.error m2 := by
      rw [show k + 1 + 1 = k + 2 from by omega]
      exact h2
    simp [http_get_text, httpGo, h0, h1, h2', failMsg_three]
    norm_num
  refine ⟨hfail url, ?_⟩
  have hstep : categoryStep net k (ARENA_BASE_URL ++ build_leaderboard_path modality slug sc) =
      (Except.error ("Request failed after 3 retries: ".data ++
        (ARENA_BASE_URL ++ build_leaderboard_path modality slug sc) ++
        " (".data ++ m2 ++ ")".data), k + 3) := by
    unfold categoryStep
    rw [hfail (ARENA_BASE_URL ++ build_leaderboard_path modality slug sc)]
  simp [refresh_categories, refreshGo, hstep]

theorem retry_exhaustion_witness :
    http_get_text (fun _ => UrlopenResult.timeoutError "timed out".data) 0
        "https://arena.ai/leaderboard/text/overall".data =
      (Except.error ("Request failed after 3 retries: ".data ++
          "https://arena.ai/leaderboard/text/overall".data ++
          " (".data ++ "timed out".data ++ ")".data),
        0 + 3, [(6 / 5 : ℚ) * 1, (6 / 5 : ℚ) * 2]) ∧
    refresh_categories (fun _ => UrlopenResult.timeoutError "timed out".data) 0
        [] "text".data [("full".data, "overall".data)] none =
      ([], [], [("full".data, "Request failed after 3 retries: ".data ++
          (ARENA_BASE_URL ++ build_leaderboard_path "text".data "overall".data none) ++
          " (".data ++ "timed out".data ++ ")".data)], 0 + 3) :=
  retry_exhaustion (fun _ => UrlopenResult.timeoutError "timed out".data) 0
    "https://arena.ai/leaderboard/text/overall".data [] "text".data "full".data "overall".data
    none "timed out".data "timed out".data "timed out".data rfl rfl rfl

/-- Claim C7 as stated is false on the code: a response with a non-2xx
status still carrying a decodable body makes `urlopen` raise
`HTTPError`, which the `except (HTTPError, URLError, TimeoutError)`
clause catches and retries; at this concrete input every attempt is a
404 with a body, yet `http_get_text` does not return the body — it
consumes all 3 attempts (oracle position 3) and raises the
retry-exhaustion failure. -/
theorem non2xx_counterexample :
    (http_get_text (fun _ => UrlopenResult.httpError 404 "<html>404 page</html>".data
        "HTTP Error 404: Not Found".data) 0
        "https://arena.ai/leaderboard/text/overall".data).1 =
      Except.error ("Request failed after 3 retries: https://arena.ai/leaderboard/text/overall (HTTP Error 404: Not Found)".data) ∧
    (http_get_text (fun _ => UrlopenResult.httpError 404 "<html>404 page</html>".data
        "HTTP Error 404: Not Found".data) 0
        "https://arena.ai/leaderboard/text/overall".data).2.1 = 3 :=
  ⟨rfl, rfl⟩

/-- Claim C7 amended: only a response for which `urlopen` returns
normally (a successful status) yields its decoded body as the result of
that attempt, without retrying and without sleeping; an `HTTPError`
raised for a non-2xx response — like `URLError` and `TimeoutError` — is
caught by the retry loop, a delay is slept, and the next attempt's
success is returned instead. -/
theorem http_error_triggers_retry (net : ℕ → UrlopenResult) (k : ℕ) (url : List Char) :
    (∀ body, net k = UrlopenResult.success body →
        http_get_text net k url = (Except.ok body, k + 1, [])) ∧
    (∀ m body, attemptResult (net k) = Except.error m →
        net (k + 1) = UrlopenResult.success body →
        http_get_text net k url = (Except.ok body, k + 2, [(6 / 5 : ℚ)])) := by
  constructor
  · intro body h
    exact http_get_text_ok url h
  · intro m body hm hb
    simp only [http_get_text, httpGo, hm]
    simp [httpGo, hb, attemptResult]

theorem http_error_triggers_retry_witness :
    http_get_text (fun n => if n = 0 then
        UrlopenResult.httpError 500 "oops".data "HTTP Error 500: Internal Server Error".data
        else UrlopenResult.success "payload".data) 0 "https://arena.ai/x".data =
      (Except.ok "payload".data, 0 + 2, [(6 / 5 : ℚ)]) :=
  (http_error_triggers_retry (fun n => if n = 0 then
      UrlopenResult.httpError 500 "oops".data "HTTP Error 500: Internal Server Error".data
      else UrlopenResult.success "payload".data) 0 "https://arena.ai/x".data).2
    "HTTP Error 500: Internal Server Error".data "payload".data rfl rfl
